import Mathlib

/-!
Verification of the plasmod alignment remapper (src/src/lib.rs).

The program remaps alignments computed against a doubled circular
reference (length 2L) back onto the original reference (length L):
`mod_cigar` rewrites one CIGAR operation sequence plus start position,
and `halve` drives the per-record pass (filter non-primary records,
remap, rebuild the record).

Modelling conventions:
- CIGAR operation lengths and positions are modelled as `Nat`; the Rust
  code uses `u32`/`usize`.  The one place where machine arithmetic can
  fail on realistic inputs is the gap-length computation
  `ref_len - end_of_prefix - len_of_suffix` (lib.rs lines 149-150),
  whose `u32` subtraction panics on underflow; we model that panic (and
  the `aln_pos % ref_len` division-by-zero panic when `ref_len = 0`) by
  returning `none`, so `mod_cigar` is `Option`-valued.
- The `for op in cigars` loop of `mod_cigar` (lib.rs lines 127-140),
  which pushes into the two vectors `suffix` (first-copy operations) and
  `prefix` (wrapped operations), is embedded as the structurally
  recursive `splitOps`, returning the pair (suffix, prefix); consing the
  head result onto the recursive result reproduces the push order of the
  Rust loop exactly.
- `halve` (lib.rs lines 44-73) is embedded as a function from the list
  of input records to the optional list of emitted records; `none`
  models the run aborting (a panic inside `mod_cigar`).  The output
  record is built by `Record::new()` + `set` + `set_pos`, which leaves
  the fresh record's flag word at its default 0; the embedding keeps
  that default.
-/

namespace Plasmod

/-- One CIGAR alignment operation: the nine variants of
`rust_htslib::bam::record::Cigar`, each carrying a length. -/
inductive Cigar where
  | Match (len : Nat)
  | Ins (len : Nat)
  | Del (len : Nat)
  | RefSkip (len : Nat)
  | SoftClip (len : Nat)
  | HardClip (len : Nat)
  | Pad (len : Nat)
  | Equal (len : Nat)
  | Diff (len : Nat)
  deriving DecidableEq

/-- The length field of a CIGAR operation (`Cigar::len()` in rust_htslib). -/
def Cigar.len : Cigar → Nat
  | .Match l => l
  | .Ins l => l
  | .Del l => l
  | .RefSkip l => l
  | .SoftClip l => l
  | .HardClip l => l
  | .Pad l => l
  | .Equal l => l
  | .Diff l => l

/-- Embedding of `new_cigar` (lib.rs lines 76-88): a new operation with
the same kind as `ref_cig` but length `len`. -/
def new_cigar (ref_cig : Cigar) (len : Nat) : Cigar :=
  match ref_cig with
  | .Match _ => .Match len
  | .Ins _ => .Ins len
  | .Del _ => .Del len
  | .RefSkip _ => .RefSkip len
  | .SoftClip _ => .SoftClip len
  | .HardClip _ => .HardClip len
  | .Pad _ => .Pad len
  | .Equal _ => .Equal len
  | .Diff _ => .Diff len

/-- Reference occupancy of a single operation: the per-element match of
`ref_occupancy` (lib.rs lines 93-100).  Match, Del, RefSkip, Equal and
Diff consume reference bases; Ins, SoftClip, HardClip and Pad do not. -/
def Cigar.refOcc : Cigar → Nat
  | .Match l => l
  | .Del l => l
  | .RefSkip l => l
  | .Equal l => l
  | .Diff l => l
  | _ => 0

/-- Embedding of `ref_occupancy` (lib.rs lines 91-102): total reference
length consumed by a CIGAR sequence. -/
def ref_occupancy (cigars : List Cigar) : Nat :=
  (cigars.map Cigar.refOcc).sum

/-- Query (read) bases consumed by a single operation, per the SAM
specification: Match, Ins, SoftClip, Equal and Diff consume query bases. -/
def Cigar.qryOcc : Cigar → Nat
  | .Match l => l
  | .Ins l => l
  | .SoftClip l => l
  | .Equal l => l
  | .Diff l => l
  | _ => 0

/-- Total query length consumed by a CIGAR sequence. -/
def query_occupancy (cigars : List Cigar) : Nat :=
  (cigars.map Cigar.qryOcc).sum

/-- Total of the raw length fields of a CIGAR sequence. -/
def total_len (cigars : List Cigar) : Nat :=
  (cigars.map Cigar.len).sum

/-- Embedding of the grouping loop of `mod_cigar` (lib.rs lines
127-140).  Walking the operations in order with running reference
cursor `pos`, it returns the pair (suffix, prefix) of the two vectors
built by the loop: `suffix` holds the operations landing in the first
reference copy (pushed when `pos + op.len() < ref_len`, plus the first
half of a straddling operation), `prefix` the operations wrapping into
the second copy (pushed when `pos >= ref_len`, plus the second half of
a straddling operation).  The cursor advances by the reference
occupancy of the original operation. -/
def splitOps (ref_len : Nat) : Nat → List Cigar → List Cigar × List Cigar
  | _, [] => ([], [])
  | pos, op :: rest =>
    if ref_len ≤ pos then
      ((splitOps ref_len (pos + op.refOcc) rest).1,
       op :: (splitOps ref_len (pos + op.refOcc) rest).2)
    else if pos + op.len < ref_len then
      (op :: (splitOps ref_len (pos + op.refOcc) rest).1,
       (splitOps ref_len (pos + op.refOcc) rest).2)
    else
      (new_cigar op (ref_len - pos) :: (splitOps ref_len (pos + op.refOcc) rest).1,
       new_cigar op (op.len - (ref_len - pos)) :: (splitOps ref_len (pos + op.refOcc) rest).2)

/-- Embedding of `mod_cigar` (lib.rs lines 105-164).  Branches, in
source order: panic on `aln_pos % 0` when `ref_len = 0` (modelled as
`none`); the second-copy early return (lines 115-117); the trivial case
when the wrapped group `prefix` is empty (lines 142-145); the wrap case
inserting a gap operation of length
`ref_len - ref_occupancy prefix - ref_occupancy suffix` (lines
147-163), whose `u32` subtraction panics on underflow (modelled as
`none` when `ref_occupancy prefix + ref_occupancy suffix > ref_len`). -/
def mod_cigar (ref_len aln_pos : Nat) (cigars : List Cigar) (use_del : Bool) :
    Option (Nat × List Cigar) :=
  if ref_len = 0 then
    none
  else if ref_len ≤ aln_pos then
    some (aln_pos % ref_len, cigars)
  else if (splitOps ref_len (aln_pos % ref_len) cigars).2 = [] then
    some (aln_pos % ref_len, (splitOps ref_len (aln_pos % ref_len) cigars).1)
  else if ref_occupancy (splitOps ref_len (aln_pos % ref_len) cigars).2
      + ref_occupancy (splitOps ref_len (aln_pos % ref_len) cigars).1 ≤ ref_len then
    some (0,
      (splitOps ref_len (aln_pos % ref_len) cigars).2
        ++ (if use_del then
              Cigar.Del (ref_len
                - ref_occupancy (splitOps ref_len (aln_pos % ref_len) cigars).2
                - ref_occupancy (splitOps ref_len (aln_pos % ref_len) cigars).1)
            else
              Cigar.RefSkip (ref_len
                - ref_occupancy (splitOps ref_len (aln_pos % ref_len) cigars).2
                - ref_occupancy (splitOps ref_len (aln_pos % ref_len) cigars).1))
          :: (splitOps ref_len (aln_pos % ref_len) cigars).1)
  else
    none

/-- Embedding of `NONPRIMARY` (lib.rs lines 38-42): the union of the
htslib flag bits BAM_FUNMAP (4), BAM_FSECONDARY (256), BAM_FQCFAIL
(512), BAM_FDUP (1024) and BAM_FSUPPLEMENTARY (2048). -/
def NONPRIMARY : Nat := 4 ||| 256 ||| 512 ||| 1024 ||| 2048

/-- An alignment record, restricted to the fields the program reads or
writes: query name, flag word, 0-based reference position, CIGAR
operations, query base sequence, per-base qualities. -/
structure AlignmentRecord where
  qname : List Nat
  flags : Nat
  pos : Nat
  cigar : List Cigar
  seq : List Nat
  qual : List Nat
  deriving DecidableEq

/-- The per-record body of the `halve` loop (lib.rs lines 56-66): run
`mod_cigar` on the record's position and CIGAR, then build the output
record with `Record::new()` + `set(qname, cigar, seq, qual)` +
`set_pos(new_start)`.  The fresh record's flag word stays at the
`Record::new()` default of 0. -/
def remap (ref_len : Nat) (use_del : Bool) (r : AlignmentRecord) :
    Option AlignmentRecord :=
  (mod_cigar ref_len r.pos r.cigar use_del).map fun p =>
    { qname := r.qname
      flags := 0
      pos := p.1
      cigar := p.2
      seq := r.seq
      qual := r.qual }

/-- Embedding of the record loop of `halve` (lib.rs lines 50-70): each
record whose flags have no NONPRIMARY bit set is remapped and emitted;
other records are skipped.  `none` models the run aborting on a panic
inside `mod_cigar`. -/
def halve (ref_len : Nat) (use_del : Bool) :
    List AlignmentRecord → Option (List AlignmentRecord)
  | [] => some []
  | r :: rest =>
    if r.flags &&& NONPRIMARY = 0 then
      match remap ref_len use_del r, halve ref_len use_del rest with
      | some r2, some out => some (r2 :: out)
      | _, _ => none
    else
      halve ref_len use_del rest

/-- Transcription of the grouping rule as the specification words it,
for comparison with `splitOps`: the branch conditions and the second
split length use the reference occupancy of the operation, not its raw
length ("if pos + occupancy(op) < L ... place it into the direct group;
else if pos < L <= pos + occupancy(op) ... split ... the first with
length L - pos, the second with length occupancy(op) - (L - pos)"; the
remaining case, pos >= L, goes to the wrapped group). -/
def splitOpsOccSpec (ref_len : Nat) : Nat → List Cigar → List Cigar × List Cigar
  | _, [] => ([], [])
  | pos, op :: rest =>
    if pos + op.refOcc < ref_len then
      (op :: (splitOpsOccSpec ref_len (pos + op.refOcc) rest).1,
       (splitOpsOccSpec ref_len (pos + op.refOcc) rest).2)
    else if pos < ref_len then
      (new_cigar op (ref_len - pos) :: (splitOpsOccSpec ref_len (pos + op.refOcc) rest).1,
       new_cigar op (op.refOcc - (ref_len - pos)) :: (splitOpsOccSpec ref_len (pos + op.refOcc) rest).2)
    else
      ((splitOpsOccSpec ref_len (pos + op.refOcc) rest).1,
       op :: (splitOpsOccSpec ref_len (pos + op.refOcc) rest).2)

/-- Transcription of the amended grouping rule: same shape as
`splitOpsOccSpec` but the branch conditions and the second split length
use the raw operation length (the cursor still advances by reference
occupancy). -/
def splitOpsLenSpec (ref_len : Nat) : Nat → List Cigar → List Cigar × List Cigar
  | _, [] => ([], [])
  | pos, op :: rest =>
    if pos + op.len < ref_len then
      (op :: (splitOpsLenSpec ref_len (pos + op.refOcc) rest).1,
       (splitOpsLenSpec ref_len (pos + op.refOcc) rest).2)
    else if pos < ref_len then
      (new_cigar op (ref_len - pos) :: (splitOpsLenSpec ref_len (pos + op.refOcc) rest).1,
       new_cigar op (op.len - (ref_len - pos)) :: (splitOpsLenSpec ref_len (pos + op.refOcc) rest).2)
    else
      ((splitOpsLenSpec ref_len (pos + op.refOcc) rest).1,
       op :: (splitOpsLenSpec ref_len (pos + op.refOcc) rest).2)

/-- One remapped output record per input record, in input order, with
the whole pass failing if any single remap fails: the shape against
which the filtering loop `halve` is compared. -/
def remapAll (ref_len : Nat) (use_del : Bool) :
    List AlignmentRecord → Option (List AlignmentRecord)
  | [] => some []
  | r :: rest =>
    match remap ref_len use_del r, remapAll ref_len use_del rest with
    | some r2, some out => some (r2 :: out)
    | _, _ => none

/-- A concrete primary record (flags 0) whose alignment lies inside the
first reference copy. -/
def recC8 : AlignmentRecord :=
  { qname := [113], flags := 0, pos := 3, cigar := [Cigar.Match 10],
    seq := [65], qual := [70] }

/-- A concrete primary record carrying a non-NONPRIMARY flag bit
(0x10, reverse strand). -/
def recC8flag : AlignmentRecord :=
  { qname := [114], flags := 16, pos := 0, cigar := [Cigar.Match 10],
    seq := [65], qual := [30] }

end Plasmod

namespace Plasmod

-- Sanity checks reproducing the repository's own unit tests
-- (lib.rs lines 170-228).

example : mod_cigar 100 0 [Cigar.Match 10] true = some (0, [Cigar.Match 10]) := by decide

example : mod_cigar 100 100 [Cigar.Match 10] true = some (0, [Cigar.Match 10]) := by decide

example : mod_cigar 100 90 [Cigar.Match 20] false
    = some (0, [Cigar.Match 10, Cigar.RefSkip 80, Cigar.Match 10]) := by decide

example : mod_cigar 100 90 [Cigar.Match 20] true
    = some (0, [Cigar.Match 10, Cigar.Del 80, Cigar.Match 10]) := by decide

example : mod_cigar 100 50 [Cigar.Match 20, Cigar.Ins 20, Cigar.Match 40] false
    = some (0, [Cigar.Match 10, Cigar.RefSkip 40, Cigar.Match 20, Cigar.Ins 20,
                Cigar.Match 30]) := by decide

-- Helper lemmas shared by the claim theorems.

theorem Cigar.refOcc_le_len (c : Cigar) : c.refOcc ≤ c.len := by
  cases c <;> simp [Cigar.refOcc, Cigar.len]

theorem total_len_cons (op : Cigar) (rest : List Cigar) :
    total_len (op :: rest) = op.len + total_len rest := by
  simp [total_len]

theorem splitOps_of_lt (ref_len : Nat) (ops : List Cigar) :
    ∀ pos : Nat, pos + total_len ops < ref_len → splitOps ref_len pos ops = (ops, []) := by
  induction ops with
  | nil => intro pos _; rfl
  | cons op rest ih =>
    intro pos h
    rw [total_len_cons] at h
    have hro := Cigar.refOcc_le_len op
    have hl : pos + op.len < ref_len := by omega
    simp only [splitOps]
    rw [if_neg (by omega), if_pos hl, ih (pos + op.refOcc) (by omega)]

/-- The C1 claim as stated fails on the code: at L = 100, running cursor
pos = 90 (reachable from start = 90) and the single operation Ins 20, the
claim (occupancy-based condition) leaves the insertion unchanged in the
direct group, but the code's loop splits it on its raw length, producing
Ins 10 in the direct group and Ins 10 in the wrapped group. -/
theorem c1_counterexample :
    splitOps 100 90 [Cigar.Ins 20] = ([Cigar.Ins 10], [Cigar.Ins 10]) ∧
    splitOpsOccSpec 100 90 [Cigar.Ins 20] = ([Cigar.Ins 20], []) ∧
    splitOps 100 90 [Cigar.Ins 20] ≠ splitOpsOccSpec 100 90 [Cigar.Ins 20] := by
  decide

/-- C1 (amended): the grouping loop places an operation unchanged into
the direct group when pos + len(op) < L (raw length, not reference
occupancy), splits it into same-kind pieces of lengths L - pos and
len(op) - (L - pos) when pos < L <= pos + len(op), and sends it whole to
the wrapped group when pos >= L; the cursor advances by the reference
occupancy of the original operation. -/
theorem c1_split_rule_amended (ref_len : Nat) (ops : List Cigar) :
    ∀ pos : Nat, splitOps ref_len pos ops = splitOpsLenSpec ref_len pos ops := by
  induction ops with
  | nil => intro pos; rfl
  | cons op rest ih =>
    intro pos
    have hro : op.refOcc ≤ op.len := Cigar.refOcc_le_len op
    simp only [splitOps, splitOpsLenSpec, ih]
    split_ifs with h1 h2 h3 <;> first | rfl | omega

/-- The C2 claim as stated fails on the code at two inputs satisfying its
hypotheses: (a) L = 10, start = 0, ops = [Match 10] has
start + occupancy = 10 <= L, yet the code splits the match at the
boundary (strict comparison) instead of returning it unchanged; (b)
L = 100, start = 90, ops = [Ins 20] has start + occupancy = 90 <= L, yet
the code splits the insertion on its raw length. -/
theorem c2_counterexample :
    (0 + ref_occupancy [Cigar.Match 10] ≤ 10 ∧
      mod_cigar 10 0 [Cigar.Match 10] false ≠ some (0, [Cigar.Match 10]) ∧
      mod_cigar 10 0 [Cigar.Match 10] false
        = some (0, [Cigar.Match 0, Cigar.RefSkip 0, Cigar.Match 10])) ∧
    (90 + ref_occupancy [Cigar.Ins 20] ≤ 100 ∧
      mod_cigar 100 90 [Cigar.Ins 20] false ≠ some (90, [Cigar.Ins 20])) := by
  decide

/-- C2 (amended): no-wrap identity holds under the strict raw-length
bound — whenever start plus the total raw length of the operations is
strictly below L, `mod_cigar` returns (start, ops) unchanged, for either
gap kind. -/
theorem c2_no_wrap_identity (ref_len start : Nat) (ops : List Cigar) (use_del : Bool)
    (h : start + total_len ops < ref_len) :
    mod_cigar ref_len start ops use_del = some (start, ops) := by
  have h0 : ¬ ref_len = 0 := by omega
  have hs : start < ref_len := by omega
  have hmod : start % ref_len = start := Nat.mod_eq_of_lt hs
  have hsp := splitOps_of_lt ref_len ops start h
  simp only [mod_cigar, hmod, hsp]
  rw [if_neg h0, if_neg (by omega)]
  simp

theorem c2_witness :
    0 + total_len [Cigar.Match 10] < 100 ∧
    mod_cigar 100 0 [Cigar.Match 10] true = some (0, [Cigar.Match 10]) :=
  ⟨by decide, c2_no_wrap_identity 100 0 [Cigar.Match 10] true (by decide)⟩

theorem mod_cigar_wrap_eq (ref_len s : Nat) (ops suf pre : List Cigar) (use_del : Bool)
    (h1 : s < ref_len) (hsp : splitOps ref_len s ops = (suf, pre)) (hpre : pre ≠ []) :
    mod_cigar ref_len s ops use_del =
      if ref_occupancy pre + ref_occupancy suf ≤ ref_len then
        some (0, pre
          ++ (if use_del then
                Cigar.Del (ref_len - ref_occupancy pre - ref_occupancy suf)
              else
                Cigar.RefSkip (ref_len - ref_occupancy pre - ref_occupancy suf))
            :: suf)
      else none := by
  have h0 : ¬ ref_len = 0 := by omega
  have hmod : s % ref_len = s := Nat.mod_eq_of_lt h1
  simp only [mod_cigar, hmod, hsp]
  rw [if_neg h0, if_neg (by omega), if_neg hpre]

/-- C3: on every successful wrap-case call (the wrapped group `pre`
produced by the grouping loop is non-empty), the returned sequence is
the wrapped group, a gap operation and the direct group, and the
reference occupancy of the wrapped group plus the gap length plus the
occupancy of the direct group equals L exactly. -/
theorem c3_gap_accounting (ref_len s ns : Nat) (ops suf pre newOps : List Cigar)
    (use_del : Bool) (h1 : s < ref_len) (hsp : splitOps ref_len s ops = (suf, pre))
    (hpre : pre ≠ []) (h : mod_cigar ref_len s ops use_del = some (ns, newOps)) :
    ∃ gap : Cigar, newOps = pre ++ gap :: suf ∧
      ref_occupancy pre + gap.len + ref_occupancy suf = ref_len := by
  rw [mod_cigar_wrap_eq ref_len s ops suf pre use_del h1 hsp hpre] at h
  by_cases hocc : ref_occupancy pre + ref_occupancy suf ≤ ref_len
  · rw [if_pos hocc] at h
    simp only [Option.some.injEq, Prod.mk.injEq] at h
    refine ⟨if use_del then
        Cigar.Del (ref_len - ref_occupancy pre - ref_occupancy suf)
      else Cigar.RefSkip (ref_len - ref_occupancy pre - ref_occupancy suf),
      h.2.symm, ?_⟩
    cases use_del <;> simp [Cigar.len] <;> omega
  · rw [if_neg hocc] at h
    exact absurd h (by simp)

theorem c3_witness :
    90 < 100 ∧
    splitOps 100 90 [Cigar.Match 20] = ([Cigar.Match 10], [Cigar.Match 10]) ∧
    ([Cigar.Match 10] : List Cigar) ≠ [] ∧
    mod_cigar 100 90 [Cigar.Match 20] false
      = some (0, [Cigar.Match 10, Cigar.RefSkip 80, Cigar.Match 10]) ∧
    (∃ gap : Cigar,
      [Cigar.Match 10, Cigar.RefSkip 80, Cigar.Match 10]
        = [Cigar.Match 10] ++ gap :: [Cigar.Match 10] ∧
      ref_occupancy [Cigar.Match 10] + gap.len + ref_occupancy [Cigar.Match 10] = 100) :=
  ⟨by decide, by decide, by decide, by decide,
    c3_gap_accounting 100 90 0 [Cigar.Match 20] [Cigar.Match 10] [Cigar.Match 10]
      [Cigar.Match 10, Cigar.RefSkip 80, Cigar.Match 10] false
      (by decide) (by decide) (by decide) (by decide)⟩

/-- C4: on every successful wrap-case call, the new start is 0 and the
new operation sequence is exactly the wrapped group, then the single gap
operation, then the direct group — the two groups being exactly those
built, in input order, by the grouping loop. -/
theorem c4_wrap_structure (ref_len s ns : Nat) (ops suf pre newOps : List Cigar)
    (use_del : Bool) (h1 : s < ref_len) (hsp : splitOps ref_len s ops = (suf, pre))
    (hpre : pre ≠ []) (h : mod_cigar ref_len s ops use_del = some (ns, newOps)) :
    ns = 0 ∧ newOps = pre
      ++ (if use_del then
            Cigar.Del (ref_len - ref_occupancy pre - ref_occupancy suf)
          else
            Cigar.RefSkip (ref_len - ref_occupancy pre - ref_occupancy suf))
        :: suf := by
  rw [mod_cigar_wrap_eq ref_len s ops suf pre use_del h1 hsp hpre] at h
  by_cases hocc : ref_occupancy pre + ref_occupancy suf ≤ ref_len
  · rw [if_pos hocc] at h
    simp only [Option.some.injEq, Prod.mk.injEq] at h
    exact ⟨h.1.symm, h.2.symm⟩
  · rw [if_neg hocc] at h
    exact absurd h (by simp)

theorem c4_witness :
    90 < 100 ∧
    splitOps 100 90 [Cigar.Match 20] = ([Cigar.Match 10], [Cigar.Match 10]) ∧
    ([Cigar.Match 10] : List Cigar) ≠ [] ∧
    mod_cigar 100 90 [Cigar.Match 20] true
      = some (0, [Cigar.Match 10, Cigar.Del 80, Cigar.Match 10]) ∧
    (0 = 0 ∧ [Cigar.Match 10, Cigar.Del 80, Cigar.Match 10]
      = [Cigar.Match 10]
        ++ (if true then
              Cigar.Del (100 - ref_occupancy [Cigar.Match 10] - ref_occupancy [Cigar.Match 10])
            else
              Cigar.RefSkip (100 - ref_occupancy [Cigar.Match 10] - ref_occupancy [Cigar.Match 10]))
          :: [Cigar.Match 10]) :=
  ⟨by decide, by decide, by decide, by decide,
    c4_wrap_structure 100 90 0 [Cigar.Match 20] [Cigar.Match 10] [Cigar.Match 10]
      [Cigar.Match 10, Cigar.Del 80, Cigar.Match 10] true
      (by decide) (by decide) (by decide) (by decide)⟩

/-- C6: in the wrap case the gap operation is a Deletion exactly when
the use-deletion flag is set and a ReferenceSkip otherwise, and the two
flag values produce the same gap length, the same new start 0, and the
same surrounding operation groups. -/
theorem c6_gap_kind (ref_len s : Nat) (ops suf pre : List Cigar)
    (h1 : s < ref_len) (hsp : splitOps ref_len s ops = (suf, pre)) (hpre : pre ≠ [])
    (hocc : ref_occupancy pre + ref_occupancy suf ≤ ref_len) :
    mod_cigar ref_len s ops true
      = some (0, pre ++ Cigar.Del (ref_len - ref_occupancy pre - ref_occupancy suf) :: suf) ∧
    mod_cigar ref_len s ops false
      = some (0, pre ++ Cigar.RefSkip (ref_len - ref_occupancy pre - ref_occupancy suf) :: suf) := by
  constructor
  · rw [mod_cigar_wrap_eq ref_len s ops suf pre true h1 hsp hpre, if_pos hocc]
    simp
  · rw [mod_cigar_wrap_eq ref_len s ops suf pre false h1 hsp hpre, if_pos hocc]
    simp

theorem c6_witness :
    90 < 100 ∧
    splitOps 100 90 [Cigar.Match 20] = ([Cigar.Match 10], [Cigar.Match 10]) ∧
    ([Cigar.Match 10] : List Cigar) ≠ [] ∧
    ref_occupancy [Cigar.Match 10] + ref_occupancy [Cigar.Match 10] ≤ 100 ∧
    (mod_cigar 100 90 [Cigar.Match 20] true
      = some (0, [Cigar.Match 10]
          ++ Cigar.Del (100 - ref_occupancy [Cigar.Match 10] - ref_occupancy [Cigar.Match 10])
            :: [Cigar.Match 10]) ∧
     mod_cigar 100 90 [Cigar.Match 20] false
      = some (0, [Cigar.Match 10]
          ++ Cigar.RefSkip (100 - ref_occupancy [Cigar.Match 10] - ref_occupancy [Cigar.Match 10])
            :: [Cigar.Match 10])) :=
  ⟨by decide, by decide, by decide, by decide,
    c6_gap_kind 100 90 [Cigar.Match 20] [Cigar.Match 10] [Cigar.Match 10]
      (by decide) (by decide) (by decide) (by decide)⟩

/-- C5: second-copy identity — for positive L and L <= start < 2L the
call returns (start - L, ops) with the operation sequence unchanged, for
either gap kind. -/
theorem c5_second_copy (ref_len s : Nat) (ops : List Cigar) (use_del : Bool)
    (h0 : 0 < ref_len) (h1 : ref_len ≤ s) (h2 : s < 2 * ref_len) :
    mod_cigar ref_len s ops use_del = some (s - ref_len, ops) := by
  have h0' : ¬ ref_len = 0 := by omega
  have hmod : s % ref_len = s - ref_len := by
    rw [Nat.mod_eq_sub_mod h1, Nat.mod_eq_of_lt (by omega)]
  simp only [mod_cigar]
  rw [if_neg h0', if_pos h1, hmod]

theorem c5_witness :
    0 < 100 ∧ 100 ≤ 100 ∧ 100 < 2 * 100 ∧
    mod_cigar 100 100 [Cigar.Match 10] true = some (100 - 100, [Cigar.Match 10]) :=
  ⟨by decide, by decide, by decide,
    c5_second_copy 100 100 [Cigar.Match 10] true (by decide) (by decide) (by decide)⟩

/-- C9: for positive L and start in [0, 2L), whenever the call returns a
result, the new start is strictly below L (non-negativity is inherent in
the Nat embedding). -/
theorem c9_new_start_range (ref_len s ns : Nat) (ops newOps : List Cigar) (use_del : Bool)
    (h0 : 0 < ref_len) (h2 : s < 2 * ref_len)
    (h : mod_cigar ref_len s ops use_del = some (ns, newOps)) : ns < ref_len := by
  unfold mod_cigar at h
  split_ifs at h <;>
    simp only [Option.some.injEq, Prod.mk.injEq, reduceCtorEq] at h <;>
    first
      | exact h.1 ▸ Nat.mod_lt s h0
      | (obtain ⟨h1, -⟩ := h; omega)

theorem c9_witness :
    0 < 100 ∧ 150 < 2 * 100 ∧
    mod_cigar 100 150 [Cigar.Match 10] false = some (50, [Cigar.Match 10]) ∧
    50 < 100 :=
  ⟨by decide, by decide, by decide,
    c9_new_start_range 100 150 50 [Cigar.Match 10] [Cigar.Match 10] false
      (by decide) (by decide) (by decide)⟩

theorem query_occupancy_cons (op : Cigar) (rest : List Cigar) :
    query_occupancy (op :: rest) = op.qryOcc + query_occupancy rest := by
  simp [query_occupancy]

theorem query_occupancy_append (xs ys : List Cigar) :
    query_occupancy (xs ++ ys) = query_occupancy xs + query_occupancy ys := by
  simp [query_occupancy]

theorem new_cigar_qryOcc (op : Cigar) (a b : Nat) (h : a + b = op.len) :
    (new_cigar op a).qryOcc + (new_cigar op b).qryOcc = op.qryOcc := by
  cases op <;> simp [new_cigar, Cigar.qryOcc, Cigar.len] at h ⊢ <;> omega

theorem splitOps_qryOcc (ref_len : Nat) (ops : List Cigar) :
    ∀ pos : Nat,
      query_occupancy (splitOps ref_len pos ops).1
        + query_occupancy (splitOps ref_len pos ops).2 = query_occupancy ops := by
  induction ops with
  | nil => intro pos; rfl
  | cons op rest ih =>
    intro pos
    simp only [splitOps]
    split_ifs with h1 h2
    · simp only [query_occupancy_cons]
      have := ih (pos + op.refOcc)
      omega
    · simp only [query_occupancy_cons]
      have := ih (pos + op.refOcc)
      omega
    · simp only [query_occupancy_cons]
      have hsplit := new_cigar_qryOcc op (ref_len - pos) (op.len - (ref_len - pos))
        (by omega)
      have := ih (pos + op.refOcc)
      omega

/-- C10: whenever `mod_cigar` returns a result, the total query length
consumed by the output operation sequence equals that of the input:
boundary splits conserve total operation length and the inserted gap
(Deletion or ReferenceSkip) consumes no query bases. -/
theorem c10_query_conservation (ref_len s ns : Nat) (ops newOps : List Cigar)
    (use_del : Bool) (h : mod_cigar ref_len s ops use_del = some (ns, newOps)) :
    query_occupancy newOps = query_occupancy ops := by
  have hq := splitOps_qryOcc ref_len ops (s % ref_len)
  unfold mod_cigar at h
  split_ifs at h with e1 e2 e3 e4 e5 <;>
    simp only [Option.some.injEq, Prod.mk.injEq, reduceCtorEq] at h
  · rw [← h.2]
  · rw [← h.2]
    rw [e3] at hq
    simpa using hq
  · rw [← h.2, query_occupancy_append, query_occupancy_cons]
    simp only [Cigar.qryOcc]
    omega
  · rw [← h.2, query_occupancy_append, query_occupancy_cons]
    simp only [Cigar.qryOcc]
    omega

theorem c10_witness :
    mod_cigar 100 50 [Cigar.Match 20, Cigar.Ins 20, Cigar.Match 40] false
      = some (0, [Cigar.Match 10, Cigar.RefSkip 40, Cigar.Match 20, Cigar.Ins 20,
                  Cigar.Match 30]) ∧
    query_occupancy [Cigar.Match 10, Cigar.RefSkip 40, Cigar.Match 20, Cigar.Ins 20,
        Cigar.Match 30]
      = query_occupancy [Cigar.Match 20, Cigar.Ins 20, Cigar.Match 40] :=
  ⟨by decide,
    c10_query_conservation 100 50 0 [Cigar.Match 20, Cigar.Ins 20, Cigar.Match 40]
      [Cigar.Match 10, Cigar.RefSkip 40, Cigar.Match 20, Cigar.Ins 20, Cigar.Match 30]
      false (by decide)⟩

/-- C7: the record pass emits exactly one output record per input record
whose flags have no NONPRIMARY bit set, dropping all other records with
no output and no error, and preserving the relative order of the
primary inputs — `halve` coincides with remapping the primary-filtered
input list one record at a time, in order. -/
theorem c7_primary_filter_order (ref_len : Nat) (use_del : Bool)
    (rs : List AlignmentRecord) :
    halve ref_len use_del rs
      = remapAll ref_len use_del (rs.filter fun r => r.flags &&& NONPRIMARY == 0) := by
  induction rs with
  | nil => rfl
  | cons r rest ih =>
    by_cases h : r.flags &&& NONPRIMARY = 0
    · have hb : (r.flags &&& NONPRIMARY == 0) = true := by simp [h]
      simp only [halve, List.filter_cons, hb, if_true, if_pos h, remapAll, ih]
    · have hb : (r.flags &&& NONPRIMARY == 0) = false := by simp [h]
      simp only [halve, List.filter_cons, hb, Bool.false_eq_true, if_false, if_neg h, ih]

/-- The C8 claim as stated fails on the code: recC8flag is a primary
record (its only flag bit, 0x10, is not in NONPRIMARY) whose alignment
needs no change, so the claim — all fields except position and operation
sequence pass through — predicts the output record equals the input; but
the output record is built from a fresh default record, so its flag word
is 0, not 16. -/
theorem c8_counterexample :
    recC8flag.flags &&& NONPRIMARY = 0 ∧
    mod_cigar 100 recC8flag.pos recC8flag.cigar false
      = some (recC8flag.pos, recC8flag.cigar) ∧
    remap 100 false recC8flag ≠ some recC8flag := by
  decide

/-- C8 (amended): the output record's query name, base sequence and
quality sequence are byte-identical to the input's, and its position and
operation sequence are those computed by `mod_cigar`; but the flag word
is not passed through — it is reset to the fresh-record default 0. -/
theorem c8_pass_through (ref_len : Nat) (use_del : Bool) (r r2 : AlignmentRecord)
    (h : remap ref_len use_del r = some r2) :
    r2.qname = r.qname ∧ r2.seq = r.seq ∧ r2.qual = r.qual ∧ r2.flags = 0 ∧
      mod_cigar ref_len r.pos r.cigar use_del = some (r2.pos, r2.cigar) := by
  unfold remap at h
  cases hm : mod_cigar ref_len r.pos r.cigar use_del with
  | none =>
    rw [hm] at h
    exact absurd h (by simp)
  | some p =>
    rw [hm] at h
    simp only [Option.map_some', Option.some.injEq] at h
    subst h
    exact ⟨rfl, rfl, rfl, rfl, rfl⟩

theorem c8_witness :
    remap 100 true recC8 = some recC8 ∧
    (recC8.qname = recC8.qname ∧ recC8.seq = recC8.seq ∧ recC8.qual = recC8.qual ∧
      recC8.flags = 0 ∧
      mod_cigar 100 recC8.pos recC8.cigar true = some (recC8.pos, recC8.cigar)) :=
  ⟨by decide, c8_pass_through 100 true recC8 recC8 (by decide)⟩

end Plasmod
